import Mathlib

/-!
Shallow embedding of `channel.js` (the TChannel channel core of
tchannel-node): the channel / sub-channel hierarchy, the inbound
connection acceptor, the request router and the reference-counted
close protocol, together with proofs of the specification claims.

Conventions of the embedding:
* JavaScript objects become Lean structures; `null`/absent fields become
  `Option`; JS truthiness of strings and booleans is made explicit
  (`truthyS`, `truthyB`: the empty string and `false` are falsy).
* The per-remote-address inbound connection table (a JS object used as a
  dictionary) becomes an association list with JS-object operations
  (`tblLookup`, `tblSet`, `tblErase`).
* Heap identity of the peer pool objects allocated by `TChannelPeers(...)`
  is modelled by a numeric pool id supplied by the caller at each
  construction site, standing for a fresh allocation.
* Thrown errors (both `assert(...)` failures and the `errors.*`
  constructors) become the `Err` inductive; functions that can throw
  return `Except Err _`.
* Observable side effects (event emission, `resetAll` on a displaced
  connection) are returned as an `Ev` trace.
-/

set_option autoImplicit false

namespace TChannelModel

/-- A JavaScript value as far as the `listen` argument checks observe it:
`typeof port === 'number'`, `typeof host === 'string'`. -/
inductive JVal where
  | num (n : Int)
  | str (s : String)
  | undef
deriving DecidableEq, Repr

def JVal.isString : JVal → Bool
  | .str _ => true
  | _ => false

def JVal.isNumber : JVal → Bool
  | .num _ => true
  | _ => false

/-- Errors thrown by the channel core.  `assertFailed` stands for a Node
`assert(cond, message)` failure; the remaining constructors stand for the
error objects built through the external `errors` module
(`errors.SocketClosedError` etc.).  `embedFuelOut` is an artifact of the
fuel used to embed the re-entrant sub-channel request delegation; it is
unreachable at sufficient fuel. -/
inductive Err where
  | assertFailed (message : String)
  | socketClosed (reason : String)
  | topLevelRequest
  | topLevelRegister
  | invalidHandlerForRegister (handlerType : Option String)
  | jsTypeError (message : String)
  | embedFuelOut
deriving DecidableEq, Repr

/-- JS truthiness of an optional string: absent and `''` are falsy. -/
def truthyS : Option String → Bool
  | some s => s ≠ ""
  | none => false

/-- JS truthiness of an optional boolean: absent and `false` are falsy. -/
def truthyB : Option Bool → Bool
  | some b => b
  | none => false

/-- Request options / request defaults: the option keys the channel core
reads (`service`, `serviceName`, `host`, `streamed`) plus the `timeout`
default installed by the constructor. -/
structure Opts where
  service : Option String := none
  serviceName : Option String := none
  host : Option String := none
  streamed : Option Bool := none
  timeout : Option Int := none
deriving DecidableEq, Repr

def pickOpt {α : Type} (overlay base : Option α) : Option α :=
  match overlay with
  | some v => some v
  | none => base

/-- `extend(base, overlay)` / the copy loops of `channelRequest`: every key
present on the overlay wins, keys absent on the overlay fall back to the
base. -/
def mergeOpts (base overlay : Opts) : Opts :=
  { service := pickOpt overlay.service base.service
    serviceName := pickOpt overlay.serviceName base.serviceName
    host := pickOpt overlay.host base.host
    streamed := pickOpt overlay.streamed base.streamed
    timeout := pickOpt overlay.timeout base.timeout }

/-- `if (!opts.service && opts.serviceName) opts.service = opts.serviceName`. -/
def aliasService (o : Opts) : Opts :=
  if ¬ truthyS o.service ∧ truthyS o.serviceName then
    { o with service := o.serviceName }
  else o

/-- Modelled from the spec: the Peer Pool collaborator (`peers.js` is not
part of the sources).  Only what the channel core observes is kept: the
identity of the pool object (`id`, standing for the heap identity of the
object returned by `TChannelPeers(...)`) and the addresses of the peers
attached to it. -/
structure Pool where
  id : Nat
  addrs : List String
deriving DecidableEq, Repr

/-- Modelled from the spec: Peer Pool `add(address)` creates a peer for the
address or returns the existing one; either way the pool afterwards
contains the address and the peer for that address is handed back. -/
def poolAdd (p : Pool) (hostPort : String) : Pool × String :=
  if hostPort ∈ p.addrs then (p, hostPort)
  else ({ p with addrs := p.addrs ++ [hostPort] }, hostPort)

/-- Modelled from the spec: Peer Pool `addPeer(peer)` attaches an existing
peer object to this pool's view. -/
def poolAddPeer (p : Pool) (peer : String) : Pool :=
  { p with addrs := p.addrs ++ [peer] }

/-- A request handler as the channel core observes it: an object carrying a
`type` tag (`register` dispatches on `self.handler && self.handler.type`). -/
structure HandlerObj where
  type : Option String := none
deriving DecidableEq, Repr

/-- The construction options the channel constructor reads
(`options.serviceName`, `options.handler`, `options.requestDefaults`). -/
structure COptions where
  serviceName : Option String := none
  handler : Option HandlerObj := none
  requestDefaults : Option Opts := none
deriving DecidableEq, Repr

/-- Modelled from the spec: `TChannelRequest.defaultTimeout` lives in the
external `request.js`; its concrete value is immaterial to every claim. -/
def TChannelRequestDefaultTimeout : Int := 100

/-- The per-channel state of `TChannel` (everything except the
`subChannels` mapping, which is held by the enclosing `Chan` node).
`serverSocket = none` means no server socket yet, `some none` an
unbound socket, `some (some p)` a socket bound at port `p`.
`closeHandlers` records the `sock.on('close', ...)` subscriptions
installed by `onServerSocketConnection`, each closing over the
`remoteAddr` string computed at accept time. -/
structure ChanCore where
  options : COptions := {}
  requestDefaults : Opts := {}
  serviceName : String := ""
  topChannel : Bool := false
  handler : HandlerObj := {}
  peers : Pool := { id := 0, addrs := [] }
  host : Option String := none
  requestedPort : Option Int := none
  hostPort : Option String := none
  listened : Bool := false
  listening : Bool := false
  destroyed : Bool := false
  serverSocket : Option (Option Nat) := none
  serverConnections : Option (List (String × Nat)) := none
  closeHandlers : List (Nat × String) := []
deriving DecidableEq, Repr

/-- A channel together with its `subChannels` mapping: `none` for a
sub-channel (the constructor sets `subChannels = null` when a service name
is bound), `some table` for a top channel. -/
inductive Chan : Type where
  | mk (core : ChanCore) (subChannels : Option (List (String × Chan))) : Chan

def Chan.core : Chan → ChanCore
  | .mk c _ => c

def Chan.subChannels : Chan → Option (List (String × Chan))
  | .mk _ s => s

/-- Lookup in a JS-object-as-dictionary keyed by service name. -/
def lookupSub (k : String) : List (String × Chan) → Option Chan
  | [] => none
  | (a, c) :: rest => if a = k then some c else lookupSub k rest

/-- `self.serverConnections[remoteAddr]`. -/
def tblLookup (k : String) : List (String × Nat) → Option Nat
  | [] => none
  | (a, v) :: rest => if a = k then some v else tblLookup k rest

/-- `delete self.serverConnections[remoteAddr]`. -/
def tblErase (k : String) : List (String × Nat) → List (String × Nat)
  | [] => []
  | (a, v) :: rest => if a = k then tblErase k rest else (a, v) :: tblErase k rest

/-- `self.serverConnections[remoteAddr] = conn`: overwrite the entry for the
key if present, otherwise append it. -/
def tblSet (k : String) (v : Nat) : List (String × Nat) → List (String × Nat)
  | [] => [(k, v)]
  | (a, w) :: rest => if a = k then (a, v) :: rest else (a, w) :: tblSet k v rest

/-- Entries stored under a given key. -/
def tblCountKey (k : String) (l : List (String × Nat)) : Nat :=
  l.countP (fun p => decide (p.1 = k))

/-- The `TChannel(options)` constructor.  `newPoolId` stands for the heap
identity of the `TChannelPeers(self, self.options)` object this
construction allocates.  The constructor consumes (and deletes from the
stored options) a truthy `options.serviceName` and a truthy
`options.handler`, installs the default service-name or endpoint handler
otherwise, merges the request defaults over the default timeout, and
creates the `subChannels` mapping exactly when no service name is bound. -/
def TChannelNew (options : COptions) (newPoolId : Nat) : Chan :=
  let rd := mergeOpts { timeout := some TChannelRequestDefaultTimeout }
      (options.requestDefaults.getD {})
  let sn : String :=
    match options.serviceName with
    | some s => if s = "" then "" else s
    | none => ""
  let storedServiceName : Option String :=
    match options.serviceName with
    | some s => if s = "" then some "" else none
    | none => none
  let handler : HandlerObj :=
    match options.handler with
    | some h => h
    | none =>
      if sn = "" then { type := some "tchannel.service-name-handler" }
      else { type := some "tchannel.endpoint-handler" }
  Chan.mk
    { options := { options with serviceName := storedServiceName, handler := none }
      requestDefaults := rd
      serviceName := sn
      topChannel := false
      handler := handler
      peers := { id := newPoolId, addrs := [] }
      host := none
      requestedPort := none
      hostPort := none
      listened := false
      listening := false
      destroyed := false
      serverSocket := none
      serverConnections := none
      closeHandlers := [] }
    (if sn = "" then some [] else none)

/-- `getServer()`: idempotent — the first call creates the (still unbound)
server socket and the inbound connection table, later calls return the
existing socket. -/
def getServer (c : ChanCore) : ChanCore :=
  if c.serverSocket.isSome then c
  else { c with serverSocket := some none, serverConnections := some [] }

/-- `listen(port, host, callback)`: the four `assert` preconditions in
source order, then `listened` is set synchronously, the bind identity
recorded, and the (possibly freshly created) server socket told to bind —
`listening` stays untouched until the asynchronous `listening` event. -/
def listen (c : ChanCore) (port host : JVal) : Except Err ChanCore :=
  if c.listened then .error (.assertFailed "TChannel can only listen once")
  else
    match host with
    | .str s =>
      match port with
      | .num n =>
        if s = "0.0.0.0" then
          .error (.assertFailed "TChannel must listen with externally visible host")
        else
          .ok (getServer { c with listened := true, requestedPort := some n, host := some s })
      | _ => .error (.assertFailed "TChannel must listen with numeric port")
    | _ => .error (.assertFailed "TChannel requires host argument")

/-- Outcome of a successful `register`: the call was delegated to the bound
endpoint handler's own `register`. -/
inductive RegisterOutcome where
  | delegated (endpointName : String)
deriving DecidableEq, Repr

/-- `register(name, handler)`: dispatch on `self.handler.type` — delegate
on the endpoint-handler tag, `TopLevelRegisterError` on the
service-name-handler tag, `InvalidHandlerForRegister` for anything else. -/
def register (c : ChanCore) (name : String) : Except Err RegisterOutcome :=
  match c.handler.type with
  | some t =>
    if t = "tchannel.endpoint-handler" then .ok (.delegated name)
    else if t = "tchannel.service-name-handler" then .error .topLevelRegister
    else .error (.invalidHandlerForRegister (some t))
  | none => .error (.invalidHandlerForRegister none)

/-- An outbound request object as constructed by the router: either built
through the Peer Pool's request entry point (`self.peers.request(null,
opts)`) or a plain single-shot `new TChannelRequest(self, opts)` bound to
the constructing channel. -/
inductive Req where
  | peersRequest (poolId : Nat) (opts : Opts)
  | single (chanServiceName : String) (opts : Opts)
deriving DecidableEq, Repr

/-- Observable effects of the channel core: emitted events and the
`resetAll` call performed on a displaced inbound connection. -/
inductive Ev where
  | request (r : Req)
  | connection (connId : Nat)
  | resetAll (connId : Nat) (e : Err)
  | listening
deriving DecidableEq, Repr

/-- An accepted inbound socket as the acceptor observes it: an identity
(for the `close` subscription) plus `remoteAddress` / `remotePort`. -/
structure SockInfo where
  sockId : Nat
  remoteAddress : String
  remotePort : Nat
deriving DecidableEq, Repr

/-- `onServerSocketConnection(sock)`: on a destroyed channel only a log
happens and no connection object is created.  Otherwise the connection is
created, any previously tracked connection for the same remote address is
`resetAll` with the duplicate-address `SocketClosedError` and deleted, a
`close` handler capturing `remoteAddr` is installed on the socket, the new
connection is stored, and a `connection` event is emitted.  Returns the new
state, the effect trace, and the id of the connection object created (if
any).  (The `none` table case cannot arise for sockets delivered by the
server socket, which `getServer` created together with the table.) -/
def onServerSocketConnection (c : ChanCore) (sock : SockInfo) (newConnId : Nat) :
    ChanCore × List Ev × Option Nat :=
  if c.destroyed then (c, [], none)
  else
    match c.serverConnections with
    | none => (c, [], none)
    | some tbl =>
      let remoteAddr := sock.remoteAddress ++ ":" ++ toString sock.remotePort
      match tblLookup remoteAddr tbl with
      | some oldConn =>
        let tbl1 := tblErase remoteAddr tbl
        ({ c with
            serverConnections := some (tblSet remoteAddr newConnId tbl1)
            closeHandlers := c.closeHandlers ++ [(sock.sockId, remoteAddr)] },
         [Ev.resetAll oldConn (Err.socketClosed "duplicate remoteAddr incoming conn"),
          Ev.connection newConnId],
         some newConnId)
      | none =>
        ({ c with
            serverConnections := some (tblSet remoteAddr newConnId tbl)
            closeHandlers := c.closeHandlers ++ [(sock.sockId, remoteAddr)] },
         [Ev.connection newConnId],
         some newConnId)

/-- The `onSocketClose` closure installed at accept time: it deletes the
table entry under the `remoteAddr` string it captured, unconditionally —
it never checks that the stored connection is still the one whose socket
closed. -/
def onSocketClose (c : ChanCore) (capturedRemoteAddr : String) : ChanCore :=
  { c with serverConnections := (c.serverConnections).map (tblErase capturedRemoteAddr) }

/-- String coercion JS performs in `self.host + ':' + port`. -/
def jsHostString : Option String → String
  | some s => s
  | none => "null"

/-- Set a sub-channel's `hostPort` when it does not already have a truthy
one (`if (!chan.hostPort) chan.hostPort = self.hostPort`). -/
def propagateHostPort (hp : String) : Chan → Chan
  | .mk c s => if truthyS c.hostPort then .mk c s else .mk { c with hostPort := some hp } s

/-- `onServerSocketListening()`: on a destroyed channel only a log happens
and nothing is mutated.  Otherwise `hostPort` is composed from `self.host`
and the actually bound port, `listening` is set, the `hostPort` is copied
to every sub-channel lacking a truthy one, and a `listening` event is
emitted.  (The unbound-socket cases cannot arise: the handler runs on the
socket's own `listening` event.) -/
def onServerSocketListening (ch : Chan) : Chan × List Ev :=
  match ch with
  | .mk core subsOpt =>
    if core.destroyed then (ch, [])
    else
      match core.serverSocket with
      | some (some port) =>
        let hp := jsHostString core.host ++ ":" ++ toString port
        let core1 := { core with hostPort := some hp, listening := true }
        let subs1 := subsOpt.map (List.map (fun p => (p.1, propagateHostPort hp p.2)))
        (.mk core1 subs1, [Ev.listening])
      | _ => (ch, [])

/-- A peer entry of `makeSubChannel`'s `options.peers`: either a plain
host-port string or an already constructed peer object. -/
inductive PeerSpec where
  | str (hostPort : String)
  | obj (hostPort : String)
deriving DecidableEq, Repr

def PeerSpec.addr : PeerSpec → String
  | .str s => s
  | .obj s => s

/-- The options `makeSubChannel` reads. -/
structure MkSubOptions where
  serviceName : Option String := none
  handler : Option HandlerObj := none
  requestDefaults : Option Opts := none
  peers : Option (List PeerSpec) := none
deriving DecidableEq, Repr

/-- One iteration of `makeSubChannel`'s peer loop over the pair
(parent pool, sub-channel pool): a string entry is resolved through the
parent pool's `add` and the resulting peer attached to the sub pool; a
peer object entry is attached to the sub pool directly. -/
def subPeersStep (pp : Pool × Pool) (spec : PeerSpec) : Pool × Pool :=
  match spec with
  | .str s =>
    let added := poolAdd pp.1 s
    (added.1, poolAddPeer pp.2 added.2)
  | .obj hp => (pp.1, poolAddPeer pp.2 hp)

/-- `makeSubChannel(options)`: the three `assert` preconditions, the merge
of the parent's stored options with every passed option key except
`peers`, construction of the sub-channel (allocating a fresh peer pool,
identity `newPoolId`), resolution of string peer entries through the
parent pool's `add` and attachment of every resulting peer to the
sub-channel's own pool, registration of the sub-channel under its service
name, and the immediate `hostPort` copy when the parent already has one.
Returns the updated top channel. -/
def makeSubChannel (self : Chan) (options : MkSubOptions) (newPoolId : Nat) :
    Except Err Chan :=
  match self with
  | .mk core subsOpt =>
    if core.serviceName ≠ "" then
      .error (.assertFailed "arbitrary-depth sub channels are unsupported")
    else
      match options.serviceName with
      | none => .error (.assertFailed "must specify serviceName")
      | some sn =>
        if sn = "" then .error (.assertFailed "must specify serviceName")
        else
          match subsOpt with
          | none => .error (.jsTypeError "cannot read subChannels of null")
          | some subs =>
            if (lookupSub sn subs).isSome then
              .error (.assertFailed "duplicate sub channel creation")
            else
              let opts : COptions :=
                { serviceName := some sn
                  handler := pickOpt options.handler core.options.handler
                  requestDefaults := pickOpt options.requestDefaults core.options.requestDefaults }
              let chan := TChannelNew opts newPoolId
              let pools := (options.peers.getD []).foldl subPeersStep
                (core.peers, chan.core.peers)
              let subFinal := Chan.mk
                { chan.core with
                    topChannel := true
                    peers := pools.2
                    hostPort := if truthyS core.hostPort then core.hostPort else chan.core.hostPort }
                chan.subChannels
              .ok (.mk { core with peers := pools.1 } (some (subs ++ [(sn, subFinal)])))

/-- The option merge `channelRequest` performs before routing: the
request defaults, overridden by the caller's options, then the
`serviceName` to `service` aliasing. -/
def mergedOpts (core : ChanCore) (options : Opts) : Opts :=
  aliasService (mergeOpts core.requestDefaults options)

/-- `request(options)` (the `channelRequest` method).  `fuel` bounds the
re-entrant delegation `subChannels[service].request(opts)`; every
hierarchy the code can build is single-level, so any positive fuel
suffices.  The result is the constructed request together with the events
the constructing channel emitted, in order, before returning it. -/
def channelRequest : Nat → Chan → Opts → Except Err (Req × List Ev)
  | fuel, .mk core subsOpt, options =>
    if core.destroyed then
      .error (.assertFailed "cannot request() to destroyed tchannel")
    else
      let opts := mergedOpts core options
      if core.serviceName = "" ∧ ¬ truthyS opts.host then
        if truthyS opts.service then
          match subsOpt with
          | some subs =>
            match lookupSub (opts.service.getD "") subs with
            | some sub =>
              match fuel with
              | fuel1 + 1 => channelRequest fuel1 sub opts
              | 0 => .error .embedFuelOut
            | none => .error .topLevelRequest
          | none => .error .topLevelRequest
        else .error .topLevelRequest
      else
        if truthyS opts.host ∨ truthyB opts.streamed then
          let req := Req.peersRequest core.peers.id opts
          .ok (req, [Ev.request req])
        else
          let req := Req.single core.serviceName opts
          .ok (req, [Ev.request req])

/-- The spec-level name for the error `request` raises on a destroyed
channel: in the source it is the `assert(!self.destroyed, ...)` failure. -/
def UseAfterCloseError : Err := .assertFailed "cannot request() to destroyed tchannel"

/-- The spec-level name for the error `close` raises on a destroyed
channel: in the source it is the `assert(!self.destroyed, ...)` failure. -/
def DoubleCloseError : Err := .assertFailed "TChannel double close"

/-- A sub-resource whose completion the close protocol waits for. -/
inductive Resource where
  | serverSocket
  | inboundConn (remoteAddr : String)
  | subChan (serviceName : String)
  | peerPool
deriving DecidableEq, Repr

/-- One step of the synchronous part of `close`: either `++counter` or the
initiation of a sub-resource's close. -/
inductive CloseAction where
  | incr
  | initiate (r : Resource)
deriving DecidableEq, Repr

/-- The state `close(callback)` has built once its synchronous part has
run: the channel is marked destroyed, `counter` holds the current count,
`trace` the sequence of increments and close initiations in source order,
and `pending` the sub-resources whose completion callback (`onClose`) is
still outstanding, each of which will fire exactly once. -/
structure CloseRun where
  selfDestroyed : Bool
  counter : Int
  trace : List CloseAction
  pending : List Resource
deriving DecidableEq, Repr

/-- `++counter` immediately followed by initiating a resource's close. -/
def addResource (s : CloseRun) (r : Resource) : CloseRun :=
  { s with
      counter := s.counter + 1
      trace := s.trace ++ [CloseAction.incr, CloseAction.initiate r]
      pending := s.pending ++ [r] }

/-- `if (self.serverSocket) { ++counter; ... close now or on the pending
listening event ... }`: either way exactly one completion is scheduled. -/
def closeSocketPart (sock : Option (Option Nat)) (s : CloseRun) : CloseRun :=
  match sock with
  | some _ => addResource s Resource.serverSocket
  | none => s

/-- `if (self.serverConnections) { for each tracked inbound connection:
++counter; incomingConn.close(onClose); }`. -/
def closeConnsPart (conns : Option (List (String × Nat))) (s : CloseRun) : CloseRun :=
  match conns with
  | some tbl =>
    tbl.foldl
      (fun (s : CloseRun) (p : String × Nat) => addResource s (Resource.inboundConn p.1)) s
  | none => s

/-- `if (self.subChannels) { for each non-destroyed sub-channel: counter++;
svcchan.close(onClose); }`. -/
def closeSubsPart (subsOpt : Option (List (String × Chan))) (s : CloseRun) : CloseRun :=
  match subsOpt with
  | some subs =>
    subs.foldl
      (fun (s : CloseRun) (p : String × Chan) =>
        if p.2.core.destroyed then s else addResource s (Resource.subChan p.1)) s
  | none => s

/-- The synchronous part of `close(callback)`: the double-close assert,
`destroyed = true`, `counter = 1`, then — in source order — the server
socket (one completion whether its close runs now or is deferred to the
pending `listening` event), every tracked inbound connection, every
non-destroyed sub-channel, and finally `self.peers.close(onClose)`, which
is initiated without a preceding increment. -/
def closeInit : Chan → Except Err CloseRun
  | .mk core subsOpt =>
    if core.destroyed then .error DoubleCloseError
    else
      let s3 := closeSubsPart subsOpt
        (closeConnsPart core.serverConnections
          (closeSocketPart core.serverSocket
            { selfDestroyed := true, counter := 1, trace := [], pending := [] }))
      .ok { s3 with
              trace := s3.trace ++ [CloseAction.initiate Resource.peerPool]
              pending := s3.pending ++ [Resource.peerPool] }

/-- The mutable state the shared `onClose` callback drives. -/
structure CloseProgress where
  counter : Int
  callbackCalls : Nat
  negLogged : Bool
deriving DecidableEq, Repr

/-- One firing of `onClose`: `if (--counter <= 0) { if (counter < 0) log;
callback(); }`. -/
def onCloseStep (p : CloseProgress) : CloseProgress :=
  let c := p.counter - 1
  if c ≤ 0 then
    { counter := c, callbackCalls := p.callbackCalls + 1, negLogged := p.negLogged || decide (c < 0) }
  else
    { counter := c, callbackCalls := p.callbackCalls, negLogged := p.negLogged }

/-- Fire the completion callbacks of the given resources, in the given
order, against a finished `closeInit` state. -/
def runClose (r : CloseRun) (order : List Resource) : CloseProgress :=
  order.foldl (fun p _ => onCloseStep p)
    { counter := r.counter, callbackCalls := 0, negLogged := false }

/-- A trace consisting of `++counter` immediately followed by the
initiation of a non-peer-pool resource, repeated. -/
def incrPairs : List CloseAction → Bool
  | [] => true
  | CloseAction.incr :: CloseAction.initiate r :: rest =>
    decide (r ≠ Resource.peerPool) && incrPairs rest
  | _ => false

/-- The invariant the synchronous part of `close` maintains while walking
its sub-resources: the channel is already marked destroyed, the counter
stays one ahead of the completions scheduled so far (the initial 1), the
trace is a run of increment-then-initiate pairs, and each increment
matches one scheduled completion. -/
def CloseBuildInv (s : CloseRun) : Prop :=
  s.selfDestroyed = true ∧
  s.counter = (s.pending.length : Int) + 1 ∧
  incrPairs s.trace = true ∧
  s.trace.count CloseAction.incr = s.pending.length

/-- Concrete close scenario: a bound server socket and one tracked inbound
connection. -/
def c1DemoChan : Chan :=
  Chan.mk
    { destroyed := false, serverSocket := some (some 4040),
      serverConnections := some [("1.2.3.4:9", 7)] }
    none

/-- The close-run state `closeInit` builds on `c1DemoChan`. -/
def c1DemoRun : CloseRun :=
  { selfDestroyed := true, counter := 3,
    trace := [CloseAction.incr, CloseAction.initiate Resource.serverSocket,
              CloseAction.incr, CloseAction.initiate (Resource.inboundConn "1.2.3.4:9"),
              CloseAction.initiate Resource.peerPool],
    pending := [Resource.serverSocket, Resource.inboundConn "1.2.3.4:9",
                Resource.peerPool] }

/-- A completion order different from initiation order. -/
def c1DemoOrder : List Resource :=
  [Resource.peerPool, Resource.serverSocket, Resource.inboundConn "1.2.3.4:9"]

/-- Concrete close scenario: an unbound (bind in flight) server socket and
one live sub-channel. -/
def c3DemoChan : Chan :=
  Chan.mk { destroyed := false, serverSocket := some none }
    (some [("svc", Chan.mk { serviceName := "svc" } none)])

/-- The close-run state `closeInit` builds on `c3DemoChan`. -/
def c3DemoRun : CloseRun :=
  { selfDestroyed := true, counter := 3,
    trace := [CloseAction.incr, CloseAction.initiate Resource.serverSocket,
              CloseAction.incr, CloseAction.initiate (Resource.subChan "svc"),
              CloseAction.initiate Resource.peerPool],
    pending := [Resource.serverSocket, Resource.subChan "svc", Resource.peerPool] }

/-- The concrete scenario refuting the shared-pool claim: a fresh top
channel (its constructor allocates pool 0) and one sub-channel made from
it (its constructor call allocates pool 1). -/
def c2DemoResult : Except Err Chan :=
  makeSubChannel (TChannelNew {} 0) { serviceName := some "svc" } 1

def c2DemoSubPoolId : Option Nat :=
  match c2DemoResult with
  | .ok t =>
    match lookupSub "svc" (t.subChannels.getD []) with
    | some s => some s.core.peers.id
    | none => none
  | .error _ => none

def c2DemoTopPoolId : Option Nat :=
  match c2DemoResult with
  | .ok t => some t.core.peers.id
  | .error _ => none

/-! ### Basic field lemmas -/

theorem getServer_listened (c : ChanCore) : (getServer c).listened = c.listened := by
  unfold getServer; split <;> rfl

theorem getServer_listening (c : ChanCore) : (getServer c).listening = c.listening := by
  unfold getServer; split <;> rfl

/-! ### Claim C7 -/

/-- Claim C7: for every channel whose `destroyed` flag is true,
`request(options)` fails immediately and synchronously with
`UseAfterCloseError` (the `assert(!self.destroyed, ...)` failure), for all
options, without constructing a Request — the error carries no request and
the routing function, being pure, mutates nothing. -/
theorem claim7_request_after_destroy (fuel : Nat) (ch : Chan) (options : Opts)
    (h : ch.core.destroyed = true) :
    channelRequest fuel ch options = .error UseAfterCloseError := by
  cases ch with
  | mk core subs =>
    simp only [Chan.core] at h
    simp [channelRequest, h, UseAfterCloseError]

theorem claim7_request_after_destroy_witness :
    channelRequest 1 (Chan.mk { destroyed := true } (some [])) {} =
      .error UseAfterCloseError :=
  claim7_request_after_destroy 1 (Chan.mk { destroyed := true } (some [])) {} rfl

/-! ### Claim C8 -/

/-- Claim C8: `listen(port, host, callback)` fails fast and synchronously
if the channel has already listened, if `host` is not a string, if `port`
is not numeric, or if `host` is `'0.0.0.0'`; a successful `listen` sets
the `listened` flag synchronously while leaving `listening` untouched, so
a second `listen` call always fails even while the first bind is still in
flight. -/
theorem claim8_listen_preconditions (c : ChanCore) (port host : JVal) :
    (c.listened = true →
      listen c port host = .error (.assertFailed "TChannel can only listen once")) ∧
    (c.listened = false → host.isString = false →
      listen c port host = .error (.assertFailed "TChannel requires host argument")) ∧
    (c.listened = false → ∀ s, host = .str s → port.isNumber = false →
      listen c port host = .error (.assertFailed "TChannel must listen with numeric port")) ∧
    (c.listened = false → ∀ n, host = .str "0.0.0.0" → port = .num n →
      listen c port host =
        .error (.assertFailed "TChannel must listen with externally visible host")) ∧
    (∀ c1, listen c port host = .ok c1 →
      c1.listened = true ∧ c1.listening = c.listening ∧
      ∀ port2 host2,
        listen c1 port2 host2 = .error (.assertFailed "TChannel can only listen once")) := by
  refine ⟨?_, ?_, ?_, ?_, ?_⟩
  · intro h; simp [listen, h]
  · intro h hh
    cases host with
    | str s => simp [JVal.isString] at hh
    | num n => simp [listen, h]
    | undef => simp [listen, h]
  · intro h s hs hp
    subst hs
    cases port with
    | num n => simp [JVal.isNumber] at hp
    | str t => simp [listen, h]
    | undef => simp [listen, h]
  · intro h n hh hp
    subst hh; subst hp
    simp [listen, h]
  · intro c1 hok
    unfold listen at hok
    split at hok
    · exact absurd hok (by simp)
    · cases host with
      | str s =>
        cases port with
        | num n =>
          by_cases h0 : s = "0.0.0.0"
          · simp [h0] at hok
          · simp [h0] at hok
            subst hok
            refine ⟨by simp [getServer_listened], by simp [getServer_listening], ?_⟩
            intro port2 host2
            simp [listen, getServer_listened]
        | str t => simp at hok
        | undef => simp at hok
      | num n => simp at hok
      | undef => simp at hok

theorem claim8_listen_preconditions_witness :
    listen
      { host := some "127.0.0.1", requestedPort := some 0, listened := true,
        serverSocket := some none, serverConnections := some [] }
      (JVal.num 4040) (JVal.str "10.0.0.1") =
      .error (.assertFailed "TChannel can only listen once") :=
  ((claim8_listen_preconditions {} (JVal.num 0) (JVal.str "127.0.0.1")).2.2.2.2
    { host := some "127.0.0.1", requestedPort := some 0, listened := true,
      serverSocket := some none, serverConnections := some [] }
    rfl).2.2 (JVal.num 4040) (JVal.str "10.0.0.1")

/-! ### Claim C9 -/

/-- Claim C9: `register(name, handler)` succeeds — delegating to the bound
handler's own `register` — exactly when the channel's handler carries the
endpoint-dispatch type tag; on the service-name-dispatch tag it throws
`TopLevelRegisterError`, and on any other handler type it throws
`InvalidHandlerForRegister` carrying that handler type. -/
theorem claim9_register_dispatch (c : ChanCore) (name : String) :
    ((∃ r, register c name = .ok r) ↔
      c.handler.type = some "tchannel.endpoint-handler") ∧
    (c.handler.type = some "tchannel.endpoint-handler" →
      register c name = .ok (.delegated name)) ∧
    (c.handler.type = some "tchannel.service-name-handler" →
      register c name = .error .topLevelRegister) ∧
    (c.handler.type ≠ some "tchannel.endpoint-handler" →
      c.handler.type ≠ some "tchannel.service-name-handler" →
      register c name = .error (.invalidHandlerForRegister c.handler.type)) := by
  refine ⟨?_, ?_, ?_, ?_⟩
  · constructor
    · rintro ⟨r, hr⟩
      unfold register at hr
      split at hr
      · rename_i t ht
        by_cases h1 : t = "tchannel.endpoint-handler"
        · rw [ht, h1]
        · by_cases h2 : t = "tchannel.service-name-handler" <;> simp [h1, h2] at hr
      · simp at hr
    · intro h
      exact ⟨.delegated name, by simp [register, h]⟩
  · intro h; simp [register, h]
  · intro h; simp [register, h]
  · intro h1 h2
    cases hty : c.handler.type with
    | none => simp [register, hty]
    | some t =>
      rw [hty] at h1 h2
      have ht1 : t ≠ "tchannel.endpoint-handler" := fun he => h1 (by rw [he])
      have ht2 : t ≠ "tchannel.service-name-handler" := fun he => h2 (by rw [he])
      simp [register, hty, ht1, ht2]

theorem claim9_register_dispatch_witness :
    register { handler := { type := some "tchannel.endpoint-handler" } } "echo" =
      .ok (.delegated "echo") :=
  (claim9_register_dispatch { handler := { type := some "tchannel.endpoint-handler" } }
    "echo").2.1 rfl

/-! ### Connection table lemmas -/

theorem tblLookup_erase_self (k : String) (l : List (String × Nat)) :
    tblLookup k (tblErase k l) = none := by
  induction l with
  | nil => rfl
  | cons p rest ih =>
    by_cases h : p.1 = k
    · simp [tblErase, h, ih]
    · simp [tblErase, tblLookup, h, ih]

theorem tblSet_of_absent (k : String) (v : Nat) (l : List (String × Nat))
    (h : tblLookup k l = none) : tblSet k v l = l ++ [(k, v)] := by
  induction l with
  | nil => rfl
  | cons p rest ih =>
    by_cases hk : p.1 = k
    · simp [tblLookup, hk] at h
    · simp [tblLookup, hk] at h
      simp [tblSet, hk, ih h]

theorem tblLookup_append_of_absent (k : String) (l1 l2 : List (String × Nat))
    (h : tblLookup k l1 = none) : tblLookup k (l1 ++ l2) = tblLookup k l2 := by
  induction l1 with
  | nil => rfl
  | cons p rest ih =>
    by_cases hk : p.1 = k
    · simp [tblLookup, hk] at h
    · simp [tblLookup, hk] at h
      simp [tblLookup, hk, ih h]

theorem tblCountKey_nil (a : String) : tblCountKey a [] = 0 := rfl

theorem tblCountKey_append (a : String) (l1 l2 : List (String × Nat)) :
    tblCountKey a (l1 ++ l2) = tblCountKey a l1 + tblCountKey a l2 := by
  simp [tblCountKey, List.countP_append]

theorem tblCountKey_single (a k : String) (v : Nat) :
    tblCountKey a [(k, v)] = if k = a then 1 else 0 := by
  by_cases h : k = a <;> simp [tblCountKey, List.countP_cons, h]

theorem tblCountKey_cons (a : String) (p : String × Nat) (l : List (String × Nat)) :
    tblCountKey a (p :: l) = tblCountKey a l + if p.1 = a then 1 else 0 := by
  by_cases h : p.1 = a <;> simp [tblCountKey, List.countP_cons, h]

theorem tblCountKey_erase_self (k : String) (l : List (String × Nat)) :
    tblCountKey k (tblErase k l) = 0 := by
  induction l with
  | nil => rfl
  | cons p rest ih =>
    obtain ⟨b, v⟩ := p
    by_cases h : b = k
    · have he : tblErase k ((b, v) :: rest) = tblErase k rest := by simp [tblErase, h]
      rw [he]; exact ih
    · have he : tblErase k ((b, v) :: rest) = (b, v) :: tblErase k rest := by
        simp [tblErase, h]
      rw [he, tblCountKey_cons, ih]
      simp [h]

theorem tblCountKey_erase_le (a k : String) (l : List (String × Nat)) :
    tblCountKey a (tblErase k l) ≤ tblCountKey a l := by
  induction l with
  | nil => exact Nat.le_refl 0
  | cons p rest ih =>
    obtain ⟨b, v⟩ := p
    by_cases h : b = k
    · have he : tblErase k ((b, v) :: rest) = tblErase k rest := by simp [tblErase, h]
      rw [he, tblCountKey_cons]
      exact Nat.le_trans ih (Nat.le_add_right _ _)
    · have he : tblErase k ((b, v) :: rest) = (b, v) :: tblErase k rest := by
        simp [tblErase, h]
      rw [he, tblCountKey_cons, tblCountKey_cons]
      exact Nat.add_le_add_right ih _

theorem tblErase_append (k : String) (l1 l2 : List (String × Nat)) :
    tblErase k (l1 ++ l2) = tblErase k l1 ++ tblErase k l2 := by
  induction l1 with
  | nil => rfl
  | cons p rest ih =>
    by_cases h : p.1 = k <;> simp [tblErase, h, ih]

/-! ### Claim C5 -/

/-- Claim C5: for an accepted inbound socket on a non-destroyed channel
whose remote address is already tracked, the old connection is reset with
the `SocketClosedError` whose reason is `"duplicate remoteAddr incoming
conn"` and its entry removed before the new connection is inserted, so the
table afterwards holds the new connection and at most one entry per remote
address; on a destroyed channel nothing happens and no connection object
is created. -/
theorem claim5_duplicate_remote_addr (c : ChanCore) (sock : SockInfo) (newConnId : Nat) :
    (c.destroyed = true → onServerSocketConnection c sock newConnId = (c, [], none)) ∧
    (c.destroyed = false → ∀ tbl, c.serverConnections = some tbl →
      ∀ oldConn,
        tblLookup (sock.remoteAddress ++ ":" ++ toString sock.remotePort) tbl = some oldConn →
      ∃ tbl1,
        onServerSocketConnection c sock newConnId =
          ({ c with
              serverConnections := some tbl1
              closeHandlers := c.closeHandlers ++
                [(sock.sockId, sock.remoteAddress ++ ":" ++ toString sock.remotePort)] },
           [Ev.resetAll oldConn (Err.socketClosed "duplicate remoteAddr incoming conn"),
            Ev.connection newConnId],
           some newConnId) ∧
        tblLookup (sock.remoteAddress ++ ":" ++ toString sock.remotePort) tbl1 =
          some newConnId ∧
        tblCountKey (sock.remoteAddress ++ ":" ++ toString sock.remotePort) tbl1 = 1 ∧
        (∀ a, tblCountKey a tbl ≤ 1 → tblCountKey a tbl1 ≤ 1)) := by
  constructor
  · intro h; simp [onServerSocketConnection, h]
  · intro hd tbl htbl oldConn hold
    have hAbsent := tblLookup_erase_self
      (sock.remoteAddress ++ ":" ++ toString sock.remotePort) tbl
    refine ⟨tblSet (sock.remoteAddress ++ ":" ++ toString sock.remotePort) newConnId
      (tblErase (sock.remoteAddress ++ ":" ++ toString sock.remotePort) tbl), ?_, ?_, ?_, ?_⟩
    · simp [onServerSocketConnection, hd, htbl, hold]
    · rw [tblSet_of_absent _ _ _ hAbsent,
        tblLookup_append_of_absent _ _ _ hAbsent]
      simp [tblLookup]
    · rw [tblSet_of_absent _ _ _ hAbsent, tblCountKey_append, tblCountKey_erase_self,
        tblCountKey_single]
      simp
    · intro a ha
      rw [tblSet_of_absent _ _ _ hAbsent, tblCountKey_append, tblCountKey_single]
      have h1 := tblCountKey_erase_le a
        (sock.remoteAddress ++ ":" ++ toString sock.remotePort) tbl
      by_cases hk : sock.remoteAddress ++ ":" ++ toString sock.remotePort = a
      · subst hk
        rw [tblCountKey_erase_self]
        simp
      · simp [hk]
        omega

theorem claim5_duplicate_remote_addr_witness :
    ∃ tbl1,
      onServerSocketConnection
        { destroyed := false, serverConnections := some [("1.2.3.4:100", 7)] }
        { sockId := 21, remoteAddress := "1.2.3.4", remotePort := 100 } 8 =
        ({ destroyed := false, serverConnections := some tbl1,
           closeHandlers := [(21, "1.2.3.4:100")] },
         [Ev.resetAll 7 (Err.socketClosed "duplicate remoteAddr incoming conn"),
          Ev.connection 8],
         some 8) ∧
      tblLookup "1.2.3.4:100" tbl1 = some 8 ∧
      tblCountKey "1.2.3.4:100" tbl1 = 1 ∧
      (∀ a, tblCountKey a [("1.2.3.4:100", 7)] ≤ 1 → tblCountKey a tbl1 ≤ 1) := by
  have h := (claim5_duplicate_remote_addr
    { destroyed := false, serverConnections := some [("1.2.3.4:100", 7)] }
    { sockId := 21, remoteAddress := "1.2.3.4", remotePort := 100 } 8).2
    rfl [("1.2.3.4:100", 7)] rfl 7 (by decide)
  exact h

/-! ### Claim C10 -/

/-- Claim C10: the `onSocketClose` handler installed at accept time deletes
the table entry under the remote address it captured, unconditionally —
it never compares the stored connection against the one whose socket
closed — so after a duplicate-address eviction (two sockets from the same
`ra:rp`, carrying distinct connections `id1` then `id2`), firing the
superseded first socket's close handler removes the replacing newer
connection `id2` from the table. -/
theorem claim10_socket_close_deletes_unconditionally
    (c : ChanCore) (tbl : List (String × Nat)) (sid1 sid2 : Nat) (ra : String) (rp : Nat)
    (id1 id2 : Nat)
    (hd : c.destroyed = false) (htbl : c.serverConnections = some tbl)
    (hfresh : tblLookup (ra ++ ":" ++ toString rp) tbl = none)
    (hne : id1 ≠ id2) :
    (∀ d tbl0 a, d.serverConnections = some tbl0 →
      (onSocketClose d a).serverConnections = some (tblErase a tbl0) ∧
      tblLookup a (tblErase a tbl0) = none) ∧
    ∃ tbl2,
      ((onServerSocketConnection
          (onServerSocketConnection c (SockInfo.mk sid1 ra rp) id1).1
          (SockInfo.mk sid2 ra rp) id2).1).serverConnections = some tbl2 ∧
      tblLookup (ra ++ ":" ++ toString rp) tbl2 = some id2 ∧
      id2 ≠ id1 ∧
      (sid1, ra ++ ":" ++ toString rp) ∈
        ((onServerSocketConnection
          (onServerSocketConnection c (SockInfo.mk sid1 ra rp) id1).1
          (SockInfo.mk sid2 ra rp) id2).1).closeHandlers ∧
      ∃ tbl3,
        (onSocketClose
          ((onServerSocketConnection
            (onServerSocketConnection c (SockInfo.mk sid1 ra rp) id1).1
            (SockInfo.mk sid2 ra rp) id2).1)
          (ra ++ ":" ++ toString rp)).serverConnections = some tbl3 ∧
        tblLookup (ra ++ ":" ++ toString rp) tbl3 = none := by
  constructor
  · intro d tbl0 a h0
    exact ⟨by simp [onSocketClose, h0], tblLookup_erase_self a tbl0⟩
  · have hc1 : (onServerSocketConnection c (SockInfo.mk sid1 ra rp) id1).1 =
        { c with
            serverConnections := some (tbl ++ [(ra ++ ":" ++ toString rp, id1)])
            closeHandlers := c.closeHandlers ++ [(sid1, ra ++ ":" ++ toString rp)] } := by
      simp [onServerSocketConnection, hd, htbl, hfresh, tblSet_of_absent _ _ _ hfresh]
    have hlook2 :
        tblLookup (ra ++ ":" ++ toString rp)
          (tbl ++ [(ra ++ ":" ++ toString rp, id1)]) = some id1 := by
      rw [tblLookup_append_of_absent _ _ _ hfresh]
      simp [tblLookup]
    have hAbsent := tblLookup_erase_self (ra ++ ":" ++ toString rp)
      (tbl ++ [(ra ++ ":" ++ toString rp, id1)])
    have hc2 : (onServerSocketConnection
          (onServerSocketConnection c (SockInfo.mk sid1 ra rp) id1).1
          (SockInfo.mk sid2 ra rp) id2).1 =
        { c with
            serverConnections := some
              (tblErase (ra ++ ":" ++ toString rp)
                  (tbl ++ [(ra ++ ":" ++ toString rp, id1)]) ++
                [(ra ++ ":" ++ toString rp, id2)])
            closeHandlers := c.closeHandlers ++ [(sid1, ra ++ ":" ++ toString rp)] ++
              [(sid2, ra ++ ":" ++ toString rp)] } := by
      rw [hc1]
      simp [onServerSocketConnection, hd, hlook2, tblSet_of_absent _ _ _ hAbsent]
    refine ⟨tblErase (ra ++ ":" ++ toString rp)
        (tbl ++ [(ra ++ ":" ++ toString rp, id1)]) ++
      [(ra ++ ":" ++ toString rp, id2)], ?_, ?_, hne.symm, ?_, ?_⟩
    · rw [hc2]
    · rw [tblLookup_append_of_absent _ _ _ hAbsent]
      simp [tblLookup]
    · rw [hc2]
      simp
    · refine ⟨tblErase (ra ++ ":" ++ toString rp)
        (tblErase (ra ++ ":" ++ toString rp)
            (tbl ++ [(ra ++ ":" ++ toString rp, id1)]) ++
          [(ra ++ ":" ++ toString rp, id2)]), ?_, ?_⟩
      · rw [hc2]
        simp [onSocketClose]
      · exact tblLookup_erase_self _ _

theorem claim10_socket_close_deletes_unconditionally_witness :
    ∃ tbl2,
      ((onServerSocketConnection
          (onServerSocketConnection { destroyed := false, serverConnections := some [] }
            (SockInfo.mk 1 "9.9.9.9" 4) 100).1
          (SockInfo.mk 2 "9.9.9.9" 4) 200).1).serverConnections = some tbl2 ∧
      tblLookup ("9.9.9.9" ++ ":" ++ toString (4 : Nat)) tbl2 = some 200 ∧
      (200 : Nat) ≠ 100 ∧
      (1, "9.9.9.9" ++ ":" ++ toString (4 : Nat)) ∈
        ((onServerSocketConnection
          (onServerSocketConnection { destroyed := false, serverConnections := some [] }
            (SockInfo.mk 1 "9.9.9.9" 4) 100).1
          (SockInfo.mk 2 "9.9.9.9" 4) 200).1).closeHandlers ∧
      ∃ tbl3,
        (onSocketClose
          ((onServerSocketConnection
            (onServerSocketConnection { destroyed := false, serverConnections := some [] }
              (SockInfo.mk 1 "9.9.9.9" 4) 100).1
            (SockInfo.mk 2 "9.9.9.9" 4) 200).1)
          ("9.9.9.9" ++ ":" ++ toString (4 : Nat))).serverConnections = some tbl3 ∧
        tblLookup ("9.9.9.9" ++ ":" ++ toString (4 : Nat)) tbl3 = none :=
  (claim10_socket_close_deletes_unconditionally
    { destroyed := false, serverConnections := some [] } [] 1 2 "9.9.9.9" 4 100 200
    rfl rfl (by decide) (by decide)).2

/-! ### Sub-channel table lemmas -/

theorem lookupSub_map (f : Chan → Chan) (k : String) (l : List (String × Chan)) :
    lookupSub k (l.map (fun p => (p.1, f p.2))) = (lookupSub k l).map f := by
  induction l with
  | nil => rfl
  | cons p rest ih =>
    by_cases h : p.1 = k <;> simp [lookupSub, h, ih]

theorem lookupSub_append_of_absent (k : String) (l1 l2 : List (String × Chan))
    (h : lookupSub k l1 = none) : lookupSub k (l1 ++ l2) = lookupSub k l2 := by
  induction l1 with
  | nil => rfl
  | cons p rest ih =>
    by_cases hk : p.1 = k
    · simp [lookupSub, hk] at h
    · simp [lookupSub, hk] at h
      simp [lookupSub, hk, ih h]

/-! ### Claim C6 -/

/-- Claim C6: when the `listening` event fires on a non-destroyed channel,
`hostPort` becomes `host + ':' + <actually bound port>`, `listening`
becomes true, the `hostPort` is copied to every existing sub-channel that
lacks one, and a `listening` event is emitted; a sub-channel created later
through `makeSubChannel` while the parent already has a `hostPort`
receives it at creation; and if the channel is already destroyed when the
event fires, nothing is mutated. -/
theorem claim6_listening_host_port (core : ChanCore) (subsOpt : Option (List (String × Chan)))
    (port : Nat) (h : String) :
    (core.destroyed = true →
      onServerSocketListening (.mk core subsOpt) = (.mk core subsOpt, [])) ∧
    (core.destroyed = false → core.serverSocket = some (some port) → core.host = some h →
      (onServerSocketListening (.mk core subsOpt)).1.core.hostPort =
        some (h ++ ":" ++ toString port) ∧
      (onServerSocketListening (.mk core subsOpt)).1.core.listening = true ∧
      (onServerSocketListening (.mk core subsOpt)).2 = [Ev.listening] ∧
      (∀ name sub, lookupSub name (subsOpt.getD []) = some sub →
        ∃ sub1,
          lookupSub name
            ((onServerSocketListening (.mk core subsOpt)).1.subChannels.getD []) = some sub1 ∧
          sub1.core.hostPort =
            (if truthyS sub.core.hostPort then sub.core.hostPort
             else some (h ++ ":" ++ toString port)))) ∧
    (∀ (top : ChanCore) (subs : List (String × Chan)) (opt : MkSubOptions)
        (nid : Nat) (sn : String),
      top.serviceName = "" → truthyS top.hostPort = true →
      opt.serviceName = some sn → sn ≠ "" → lookupSub sn subs = none →
      ∃ t,
        makeSubChannel (.mk top (some subs)) opt nid = .ok t ∧
        (lookupSub sn (t.subChannels.getD [])).map (fun s => s.core.hostPort) =
          some top.hostPort) := by
  refine ⟨?_, ?_, ?_⟩
  · intro hdes
    simp [onServerSocketListening, hdes]
  · intro hdes hsock hhost
    have hrun : onServerSocketListening (.mk core subsOpt) =
        (.mk { core with hostPort := some (h ++ ":" ++ toString port), listening := true }
          (subsOpt.map (List.map (fun p =>
            (p.1, propagateHostPort (h ++ ":" ++ toString port) p.2)))),
         [Ev.listening]) := by
      simp [onServerSocketListening, hdes, hsock, hhost, jsHostString]
    refine ⟨by simp [hrun, Chan.core], by simp [hrun, Chan.core], by simp [hrun], ?_⟩
    intro name sub hsub
    cases subsOpt with
    | none => simp [lookupSub] at hsub
    | some subs =>
      simp only [Option.getD_some] at hsub
      refine ⟨propagateHostPort (h ++ ":" ++ toString port) sub, ?_, ?_⟩
      · rw [hrun]
        simp only [Chan.subChannels]
        simp [lookupSub_map, hsub]
      · cases sub with
        | mk subCore subSubs =>
          by_cases ht : truthyS subCore.hostPort
          · simp [propagateHostPort, ht, Chan.core]
          · simp [propagateHostPort, ht, Chan.core]
  · intro top subs opt nid sn hsn htruthy hosn hne hlook
    unfold makeSubChannel
    simp only [hsn, hosn, hlook, ne_eq, not_true_eq_false, Bool.false_eq_true, if_false,
      Option.isSome_none, if_neg hne]
    refine ⟨_, rfl, ?_⟩
    simp only [Chan.subChannels, Option.getD_some]
    rw [lookupSub_append_of_absent _ _ _ hlook]
    simp [lookupSub, Chan.core, htruthy]

theorem claim6_listening_host_port_witness :
    (onServerSocketListening
      (.mk { destroyed := false, serverSocket := some (some 4040), host := some "127.0.0.1" }
        (some [("svc", Chan.mk { serviceName := "svc" } none)]))).1.core.hostPort =
      some ("127.0.0.1" ++ ":" ++ toString (4040 : Nat)) :=
  ((claim6_listening_host_port
    { destroyed := false, serverSocket := some (some 4040), host := some "127.0.0.1" }
    (some [("svc", Chan.mk { serviceName := "svc" } none)]) 4040 "127.0.0.1").2.1
    rfl rfl rfl).1

/-! ### Peer pool lemmas -/

theorem poolAdd_fst_id (p : Pool) (s : String) : (poolAdd p s).1.id = p.id := by
  unfold poolAdd; split <;> rfl

theorem poolAdd_snd (p : Pool) (s : String) : (poolAdd p s).2 = s := by
  unfold poolAdd; split <;> rfl

theorem poolAdd_mem_self (p : Pool) (s : String) : s ∈ (poolAdd p s).1.addrs := by
  unfold poolAdd; split
  · assumption
  · simp

theorem poolAdd_mem_mono (p : Pool) (s a : String) (h : a ∈ p.addrs) :
    a ∈ (poolAdd p s).1.addrs := by
  unfold poolAdd; split
  · exact h
  · simp [h]

theorem poolAddPeer_id (p : Pool) (s : String) : (poolAddPeer p s).id = p.id := rfl

theorem poolAddPeer_mem_self (p : Pool) (s : String) : s ∈ (poolAddPeer p s).addrs := by
  simp [poolAddPeer]

theorem poolAddPeer_mem_mono (p : Pool) (s a : String) (h : a ∈ p.addrs) :
    a ∈ (poolAddPeer p s).addrs := by
  simp [poolAddPeer]
  exact Or.inl h

theorem subPeersStep_fst_id (pp : Pool × Pool) (spec : PeerSpec) :
    (subPeersStep pp spec).1.id = pp.1.id := by
  cases spec <;> simp [subPeersStep, poolAdd_fst_id]

theorem subPeersStep_snd_id (pp : Pool × Pool) (spec : PeerSpec) :
    (subPeersStep pp spec).2.id = pp.2.id := by
  cases spec <;> simp [subPeersStep, poolAddPeer_id]

theorem subPeersStep_fst_mono (pp : Pool × Pool) (spec : PeerSpec) (a : String)
    (h : a ∈ pp.1.addrs) : a ∈ (subPeersStep pp spec).1.addrs := by
  cases spec with
  | str s => exact poolAdd_mem_mono _ _ _ h
  | obj hp => exact h

theorem subPeersStep_snd_mono (pp : Pool × Pool) (spec : PeerSpec) (a : String)
    (h : a ∈ pp.2.addrs) : a ∈ (subPeersStep pp spec).2.addrs := by
  cases spec with
  | str s => exact poolAddPeer_mem_mono _ _ _ h
  | obj hp => exact poolAddPeer_mem_mono _ _ _ h

theorem subPeersFold_fst_id (l : List PeerSpec) :
    ∀ pp : Pool × Pool, (l.foldl subPeersStep pp).1.id = pp.1.id := by
  induction l with
  | nil => intro pp; rfl
  | cons s rest ih =>
    intro pp
    rw [List.foldl_cons, ih, subPeersStep_fst_id]

theorem subPeersFold_snd_id (l : List PeerSpec) :
    ∀ pp : Pool × Pool, (l.foldl subPeersStep pp).2.id = pp.2.id := by
  induction l with
  | nil => intro pp; rfl
  | cons s rest ih =>
    intro pp
    rw [List.foldl_cons, ih, subPeersStep_snd_id]

theorem subPeersFold_fst_mono (l : List PeerSpec) :
    ∀ (pp : Pool × Pool) (a : String), a ∈ pp.1.addrs →
      a ∈ (l.foldl subPeersStep pp).1.addrs := by
  induction l with
  | nil => intro pp a h; exact h
  | cons s rest ih =>
    intro pp a h
    rw [List.foldl_cons]
    exact ih _ _ (subPeersStep_fst_mono _ _ _ h)

theorem subPeersFold_snd_mono (l : List PeerSpec) :
    ∀ (pp : Pool × Pool) (a : String), a ∈ pp.2.addrs →
      a ∈ (l.foldl subPeersStep pp).2.addrs := by
  induction l with
  | nil => intro pp a h; exact h
  | cons s rest ih =>
    intro pp a h
    rw [List.foldl_cons]
    exact ih _ _ (subPeersStep_snd_mono _ _ _ h)

theorem subPeersFold_str_mem (l : List PeerSpec) :
    ∀ (pp : Pool × Pool) (s : String), PeerSpec.str s ∈ l →
      s ∈ (l.foldl subPeersStep pp).1.addrs := by
  induction l with
  | nil => intro pp s h; simp at h
  | cons q rest ih =>
    intro pp s h
    rw [List.foldl_cons]
    rcases List.mem_cons.mp h with h1 | h1
    · subst h1
      apply subPeersFold_fst_mono
      simp only [subPeersStep]
      exact poolAdd_mem_self _ _
    · exact ih _ _ h1

theorem subPeersFold_spec_mem (l : List PeerSpec) :
    ∀ (pp : Pool × Pool) (ps : PeerSpec), ps ∈ l →
      ps.addr ∈ (l.foldl subPeersStep pp).2.addrs := by
  induction l with
  | nil => intro pp ps h; simp at h
  | cons q rest ih =>
    intro pp ps h
    rw [List.foldl_cons]
    rcases List.mem_cons.mp h with h1 | h1
    · subst h1
      apply subPeersFold_snd_mono
      cases ps with
      | str s =>
        simp only [subPeersStep, PeerSpec.addr, poolAdd_snd]
        exact poolAddPeer_mem_self _ _
      | obj hp =>
        simp only [subPeersStep, PeerSpec.addr]
        exact poolAddPeer_mem_self _ _
    · exact ih _ _ h1

theorem lookupSub_append_single (k : String) (l : List (String × Chan)) (x : Chan)
    (h : lookupSub k l = none) : lookupSub k (l ++ [(k, x)]) = some x := by
  rw [lookupSub_append_of_absent _ _ _ h]
  simp [lookupSub]

/-! ### Claim C2 -/

/-- Claim C2 counterexample: the claim says a sub-channel's `peers` is the
very same pool object as its top channel's.  In the code, `makeSubChannel`
builds the sub-channel through the `TChannel` constructor, which allocates
a fresh `TChannelPeers` pool; on the concrete scenario the sub-channel's
pool is the fresh allocation (identity 1) while the top channel keeps its
own pool (identity 0) — two distinct objects, not one shared pool. -/
theorem claim2_shared_pool_counterexample :
    c2DemoSubPoolId = some 1 ∧ c2DemoTopPoolId = some 0 ∧
    c2DemoSubPoolId ≠ c2DemoTopPoolId := by
  refine ⟨by rfl, by rfl, by decide⟩

/-- Claim C2 (amended): a sub-channel created by `makeSubChannel` owns a
fresh peer pool, distinct from its top channel's pool; the top channel
keeps its own pool, whose peers persist; `options.peers` entries given as
strings are resolved through the top channel's pool (ending up among its
addresses) and every entry — string or peer object — is attached to the
sub-channel's own pool. -/
theorem claim2_sub_pool_amended (top : ChanCore) (subs : List (String × Chan))
    (opt : MkSubOptions) (nid : Nat) (sn : String)
    (hsn : top.serviceName = "") (hosn : opt.serviceName = some sn) (hne : sn ≠ "")
    (hlook : lookupSub sn subs = none) (hfresh : nid ≠ top.peers.id) :
    ∃ t, makeSubChannel (.mk top (some subs)) opt nid = .ok t ∧
      t.core.peers.id = top.peers.id ∧
      ∃ sub, lookupSub sn (t.subChannels.getD []) = some sub ∧
        sub.core.peers.id = nid ∧
        sub.core.peers.id ≠ t.core.peers.id ∧
        (∀ s, PeerSpec.str s ∈ opt.peers.getD [] → s ∈ t.core.peers.addrs) ∧
        (∀ a, a ∈ top.peers.addrs → a ∈ t.core.peers.addrs) ∧
        (∀ ps, ps ∈ opt.peers.getD [] → ps.addr ∈ sub.core.peers.addrs) := by
  unfold makeSubChannel
  simp only [hsn, hosn, hlook, ne_eq, not_true_eq_false, Bool.false_eq_true, if_false,
    Option.isSome_none, if_neg hne]
  refine ⟨_, rfl, ?_, ?_⟩
  · simp only [Chan.core]
    rw [subPeersFold_fst_id]
  · simp only [Chan.subChannels, Option.getD_some]
    refine ⟨_, lookupSub_append_single _ _ _ hlook, ?_, ?_, ?_, ?_, ?_⟩
    · simp only [Chan.core]
      rw [subPeersFold_snd_id]
      rfl
    · simp only [Chan.core]
      rw [subPeersFold_snd_id, subPeersFold_fst_id]
      exact hfresh
    · intro s hs
      simp only [Chan.core]
      exact subPeersFold_str_mem _ _ _ hs
    · intro a ha
      simp only [Chan.core]
      exact subPeersFold_fst_mono _ _ _ ha
    · intro ps hps
      simp only [Chan.core]
      exact subPeersFold_spec_mem _ _ _ hps

theorem claim2_sub_pool_amended_witness :
    ∃ t, makeSubChannel (.mk {} (some []))
        { serviceName := some "svc", peers := some [PeerSpec.str "1.1.1.1:99"] } 1 = .ok t ∧
      t.core.peers.id = ({} : ChanCore).peers.id ∧
      ∃ sub, lookupSub "svc" (t.subChannels.getD []) = some sub ∧
        sub.core.peers.id = 1 ∧
        sub.core.peers.id ≠ t.core.peers.id ∧
        (∀ s, PeerSpec.str s ∈
            (({ serviceName := some "svc", peers := some [PeerSpec.str "1.1.1.1:99"] } :
              MkSubOptions).peers.getD []) → s ∈ t.core.peers.addrs) ∧
        (∀ a, a ∈ ({} : ChanCore).peers.addrs → a ∈ t.core.peers.addrs) ∧
        (∀ ps, ps ∈
            (({ serviceName := some "svc", peers := some [PeerSpec.str "1.1.1.1:99"] } :
              MkSubOptions).peers.getD []) → ps.addr ∈ sub.core.peers.addrs) :=
  claim2_sub_pool_amended {} []
    { serviceName := some "svc", peers := some [PeerSpec.str "1.1.1.1:99"] } 1 "svc"
    rfl rfl (by decide) rfl (by decide)

/-! ### Claim C4 -/

/-- Whenever `channelRequest` succeeds — at any fuel, including through
sub-channel delegation — the constructing channel emitted exactly one
`request` event, carrying the very request object that is returned. -/
theorem channelRequest_ok_events :
    ∀ (fuel : Nat) (ch : Chan) (options : Opts) (req : Req) (evs : List Ev),
      channelRequest fuel ch options = .ok (req, evs) → evs = [Ev.request req] := by
  intro fuel
  induction fuel with
  | zero =>
    intro ch options req evs h
    cases ch with
    | mk core subsOpt =>
      simp only [channelRequest] at h
      split at h
      · simp at h
      · split at h
        · split at h
          · split at h
            · split at h
              · simp at h
              · simp at h
            · simp at h
          · simp at h
        · split at h
          · simp only [Except.ok.injEq, Prod.mk.injEq] at h
            rw [← h.2, h.1]
          · simp only [Except.ok.injEq, Prod.mk.injEq] at h
            rw [← h.2, h.1]
  | succ n ih =>
    intro ch options req evs h
    cases ch with
    | mk core subsOpt =>
      simp only [channelRequest] at h
      split at h
      · simp at h
      · split at h
        · split at h
          · split at h
            · split at h
              · exact ih _ _ _ _ h
              · simp at h
            · simp at h
          · simp at h
        · split at h
          · simp only [Except.ok.injEq, Prod.mk.injEq] at h
            rw [← h.2, h.1]
          · simp only [Except.ok.injEq, Prod.mk.injEq] at h
            rw [← h.2, h.1]

/-- Claim C4: on a non-destroyed channel, `request(options)` merges the
defaults and options and routes in source order: a top channel (empty
`serviceName`) with no truthy pinned host re-enters the call on the named
sub-channel when it exists and fails with `TopLevelRequestError`
otherwise; else a truthy pinned host or a streamed request is constructed
through the Peer Pool's request entry point — never as a plain single-shot
request — and only otherwise a single-shot request bound to this channel
is constructed; every successful construction emits a `request` event
carrying the constructed request before returning it. -/
theorem claim4_request_routing (fuel : Nat) (core : ChanCore)
    (subsOpt : Option (List (String × Chan))) (options : Opts)
    (hd : core.destroyed = false) :
    (∀ subs sub, core.serviceName = "" →
      truthyS (mergedOpts core options).host = false →
      truthyS (mergedOpts core options).service = true →
      subsOpt = some subs →
      lookupSub ((mergedOpts core options).service.getD "") subs = some sub →
      channelRequest (fuel + 1) (.mk core subsOpt) options =
        channelRequest fuel sub (mergedOpts core options)) ∧
    (core.serviceName = "" →
      truthyS (mergedOpts core options).host = false →
      (truthyS (mergedOpts core options).service = false ∨ subsOpt = none ∨
        (∀ subs, subsOpt = some subs →
          lookupSub ((mergedOpts core options).service.getD "") subs = none)) →
      channelRequest fuel (.mk core subsOpt) options = .error .topLevelRequest) ∧
    ((core.serviceName ≠ "" ∨ truthyS (mergedOpts core options).host = true) →
      (truthyS (mergedOpts core options).host = true ∨
        truthyB (mergedOpts core options).streamed = true) →
      channelRequest fuel (.mk core subsOpt) options =
        .ok (Req.peersRequest core.peers.id (mergedOpts core options),
          [Ev.request (Req.peersRequest core.peers.id (mergedOpts core options))])) ∧
    (core.serviceName ≠ "" →
      truthyS (mergedOpts core options).host = false →
      truthyB (mergedOpts core options).streamed = false →
      channelRequest fuel (.mk core subsOpt) options =
        .ok (Req.single core.serviceName (mergedOpts core options),
          [Ev.request (Req.single core.serviceName (mergedOpts core options))])) ∧
    (∀ req evs, channelRequest fuel (.mk core subsOpt) options = .ok (req, evs) →
      evs = [Ev.request req]) := by
  refine ⟨?_, ?_, ?_, ?_, ?_⟩
  · intro subs sub hsn hh hs hsubs hlook
    subst hsubs
    simp only [channelRequest, hd, Bool.false_eq_true, if_false, hsn, hh, hs, hlook]
    simp
  · intro hsn hh hcase
    rcases hcase with hs | hnone | hall
    · simp only [channelRequest, hd, Bool.false_eq_true, if_false, hsn, hh, hs]
      simp
    · subst hnone
      by_cases hs : truthyS (mergedOpts core options).service = true
      · simp only [channelRequest, hd, Bool.false_eq_true, if_false, hsn, hh, hs]
        simp
      · simp only [Bool.not_eq_true] at hs
        simp only [channelRequest, hd, Bool.false_eq_true, if_false, hsn, hh, hs]
        simp
    · cases subsOpt with
      | none =>
        by_cases hs : truthyS (mergedOpts core options).service = true
        · simp only [channelRequest, hd, Bool.false_eq_true, if_false, hsn, hh, hs]
          simp
        · simp only [Bool.not_eq_true] at hs
          simp only [channelRequest, hd, Bool.false_eq_true, if_false, hsn, hh, hs]
          simp
      | some subs =>
        have hlook := hall subs rfl
        by_cases hs : truthyS (mergedOpts core options).service = true
        · simp only [channelRequest, hd, Bool.false_eq_true, if_false, hsn, hh, hs, hlook]
          simp
        · simp only [Bool.not_eq_true] at hs
          simp only [channelRequest, hd, Bool.false_eq_true, if_false, hsn, hh, hs]
          simp
  · intro hcond hhs
    have houter : ¬ (core.serviceName = "" ∧ ¬ truthyS (mergedOpts core options).host = true) := by
      rcases hcond with h1 | h1
      · exact fun hc => h1 hc.1
      · exact fun hc => hc.2 h1
    have hinner : (truthyS (mergedOpts core options).host = true ∨
        truthyB (mergedOpts core options).streamed = true) := hhs
    simp only [channelRequest, hd, Bool.false_eq_true, if_false, if_neg houter, if_pos hinner]
  · intro hsn hh hstr
    have houter : ¬ (core.serviceName = "" ∧ ¬ truthyS (mergedOpts core options).host = true) := by
      exact fun hc => hsn hc.1
    have hinner : ¬ (truthyS (mergedOpts core options).host = true ∨
        truthyB (mergedOpts core options).streamed = true) := by
      rintro (h1 | h1)
      · rw [hh] at h1; exact Bool.false_ne_true h1
      · rw [hstr] at h1; exact Bool.false_ne_true h1
    simp only [channelRequest, hd, Bool.false_eq_true, if_false, if_neg houter, if_neg hinner]
  · intro req evs h
    exact channelRequest_ok_events fuel _ _ _ _ h

theorem claim4_request_routing_witness :
    channelRequest 1
      (.mk { serviceName := "svc", peers := { id := 5, addrs := [] } } none)
      { host := some "1.2.3.4:80" } =
      .ok (Req.peersRequest 5
          (mergedOpts { serviceName := "svc", peers := { id := 5, addrs := [] } }
            { host := some "1.2.3.4:80" }),
        [Ev.request (Req.peersRequest 5
          (mergedOpts { serviceName := "svc", peers := { id := 5, addrs := [] } }
            { host := some "1.2.3.4:80" }))]) :=
  (claim4_request_routing 1 { serviceName := "svc", peers := { id := 5, addrs := [] } }
    none { host := some "1.2.3.4:80" } rfl).2.2.1
    (Or.inl (by decide)) (Or.inl (by decide))

/-! ### Close protocol lemmas -/

theorem incrPairs_append_pair : ∀ (u : List CloseAction), incrPairs u = true →
    ∀ (r : Resource), r ≠ Resource.peerPool →
    incrPairs (u ++ [CloseAction.incr, CloseAction.initiate r]) = true
  | [], _, r, hr => by simp [incrPairs, hr]
  | CloseAction.incr :: CloseAction.initiate q :: rest, h, r, hr => by
    simp only [incrPairs, Bool.and_eq_true, decide_eq_true_eq] at h
    have hrec := incrPairs_append_pair rest h.2 r hr
    simp only [List.cons_append, incrPairs, Bool.and_eq_true, decide_eq_true_eq]
    exact ⟨h.1, hrec⟩
  | [CloseAction.incr], h, r, hr => by simp [incrPairs] at h
  | CloseAction.incr :: CloseAction.incr :: rest, h, r, hr => by simp [incrPairs] at h
  | CloseAction.initiate q :: rest, h, r, hr => by simp [incrPairs] at h

theorem addResource_inv (s : CloseRun) (r : Resource) (hr : r ≠ Resource.peerPool)
    (h : CloseBuildInv s) : CloseBuildInv (addResource s r) := by
  obtain ⟨h1, h2, h3, h4⟩ := h
  refine ⟨h1, ?_, ?_, ?_⟩
  · simp only [addResource, List.length_append, List.length_cons, List.length_nil]
    rw [h2]
    push_cast
    ring
  · simpa [addResource] using incrPairs_append_pair _ h3 _ hr
  · simp only [addResource, List.count_append, h4, List.length_append]
    simp [List.count_cons, List.count_nil]

theorem closeSocketPart_inv (sock : Option (Option Nat)) (s : CloseRun)
    (h : CloseBuildInv s) : CloseBuildInv (closeSocketPart sock s) := by
  cases sock with
  | none => exact h
  | some x => exact addResource_inv _ _ (by simp) h

theorem closeConnsPart_inv (conns : Option (List (String × Nat))) (s : CloseRun)
    (h : CloseBuildInv s) : CloseBuildInv (closeConnsPart conns s) := by
  cases conns with
  | none => exact h
  | some tbl =>
    simp only [closeConnsPart]
    induction tbl generalizing s with
    | nil => exact h
    | cons p rest ih =>
      rw [List.foldl_cons]
      exact ih _ (addResource_inv _ _ (by simp) h)

theorem closeSubsPart_inv (subsOpt : Option (List (String × Chan))) (s : CloseRun)
    (h : CloseBuildInv s) : CloseBuildInv (closeSubsPart subsOpt s) := by
  cases subsOpt with
  | none => exact h
  | some subs =>
    simp only [closeSubsPart]
    induction subs generalizing s with
    | nil => exact h
    | cons p rest ih =>
      rw [List.foldl_cons]
      by_cases hdes : p.2.core.destroyed
      · rw [if_pos hdes]
        exact ih _ h
      · rw [if_neg hdes]
        exact ih _ (addResource_inv _ _ (by simp) h)

/-- What the synchronous part of `close` guarantees: the channel is marked
destroyed, the counter equals the number of pending completions, and the
trace is a run of increment-initiation pairs closed off by the peer pool
initiation that has no increment of its own. -/
theorem closeInit_spec (c : Chan) (r : CloseRun) (h : closeInit c = .ok r) :
    r.selfDestroyed = true ∧
    r.counter = (r.pending.length : Int) ∧
    1 ≤ r.counter ∧
    (∃ u, r.trace = u ++ [CloseAction.initiate Resource.peerPool] ∧ incrPairs u = true ∧
      u.count CloseAction.incr + 1 = r.pending.length) := by
  cases c with
  | mk core subsOpt =>
    simp only [closeInit] at h
    split at h
    · simp at h
    · have hInv : CloseBuildInv
          (closeSubsPart subsOpt
            (closeConnsPart core.serverConnections
              (closeSocketPart core.serverSocket
                { selfDestroyed := true, counter := 1, trace := [], pending := [] }))) := by
        apply closeSubsPart_inv
        apply closeConnsPart_inv
        apply closeSocketPart_inv
        unfold CloseBuildInv
        refine ⟨rfl, by simp, rfl, rfl⟩
      obtain ⟨h1, h2, h3, h4⟩ := hInv
      simp only [Except.ok.injEq] at h
      subst h
      refine ⟨h1, ?_, ?_, ?_⟩
      · simp only [List.length_append, List.length_cons, List.length_nil]
        rw [h2]
        push_cast
        ring
      · rw [h2]
        have : 0 ≤ ((closeSubsPart subsOpt
          (closeConnsPart core.serverConnections
            (closeSocketPart core.serverSocket
              { selfDestroyed := true, counter := 1, trace := [],
                pending := [] }))).pending.length : Int) := Int.natCast_nonneg _
        omega
      · exact ⟨_, rfl, h3, by rw [h4]; simp⟩

theorem runClose_eq_iterate (r : CloseRun) (order : List Resource) :
    runClose r order = onCloseStep^[order.length]
      { counter := r.counter, callbackCalls := 0, negLogged := false } := by
  unfold runClose
  generalize ({ counter := r.counter, callbackCalls := 0, negLogged := false } :
    CloseProgress) = init
  induction order generalizing init with
  | nil => rfl
  | cons x rest ih =>
    rw [List.foldl_cons, List.length_cons, Function.iterate_succ_apply]
    exact ih _

theorem onCloseStep_iterate (n : Nat) : ∀ (k : Nat), k ≤ n →
    onCloseStep^[k] { counter := (n : Int), callbackCalls := 0, negLogged := false } =
      { counter := (n : Int) - k,
        callbackCalls := if k = n ∧ 0 < n then 1 else 0,
        negLogged := false } := by
  intro k
  induction k with
  | zero =>
    intro _
    have hcond : ¬ (0 = n ∧ 0 < n) := by omega
    rw [Function.iterate_zero_apply, if_neg hcond]
    simp
  | succ k ih =>
    intro h
    have hk : k ≤ n := Nat.le_of_succ_le h
    have hkn : ¬ (k = n ∧ 0 < n) := by omega
    rw [Function.iterate_succ_apply', ih hk, if_neg hkn]
    unfold onCloseStep
    simp only []
    by_cases hc : ((n : Int) - k - 1) ≤ 0
    · rw [if_pos hc]
      have h1 : k + 1 = n := by omega
      have hneg : ¬ ((n : Int) - k - 1 < 0) := by omega
      have hpos : (0 : Nat) < n := by omega
      simp only [CloseProgress.mk.injEq]
      refine ⟨by push_cast; ring, ?_, by simp [hneg]⟩
      rw [if_pos ⟨h1, hpos⟩]
    · rw [if_neg hc]
      have h1 : ¬ (k + 1 = n ∧ 0 < n) := by omega
      simp only [CloseProgress.mk.injEq]
      refine ⟨by push_cast; ring, ?_, by trivial⟩
      rw [if_neg h1]

/-! ### Claim C1 -/

/-- Claim C1: `close(callback)` fails on an already destroyed channel;
otherwise it marks the channel destroyed immediately and, over the
completions of all its sub-resources (listening socket if a server socket
exists, every tracked inbound connection, every non-destroyed sub-channel,
and the peer pool), fired in any order, the callback runs exactly once —
on the final completion, and never before. -/
theorem claim1_close_callback_once (c : Chan) (r : CloseRun) (order : List Resource) :
    (c.core.destroyed = true → closeInit c = .error DoubleCloseError) ∧
    (closeInit c = .ok r → order.Perm r.pending →
      r.selfDestroyed = true ∧
      (runClose r order).callbackCalls = 1 ∧
      (∀ k, k < order.length → (runClose r (order.take k)).callbackCalls = 0)) := by
  constructor
  · intro h
    cases c with
    | mk core subsOpt =>
      simp only [Chan.core] at h
      simp [closeInit, h]
  · intro hok hperm
    obtain ⟨h1, h2, h3, _⟩ := closeInit_spec c r hok
    have hlen : order.length = r.pending.length := hperm.length_eq
    have hle : 1 ≤ r.pending.length := by omega
    refine ⟨h1, ?_, ?_⟩
    · rw [runClose_eq_iterate, h2, ← hlen,
        onCloseStep_iterate order.length order.length (Nat.le_refl _)]
      rw [if_pos ⟨rfl, by omega⟩]
    · intro k hk
      rw [runClose_eq_iterate, h2, ← hlen, List.length_take,
        Nat.min_eq_left (Nat.le_of_lt hk),
        onCloseStep_iterate order.length k (Nat.le_of_lt hk)]
      rw [if_neg (by omega)]

theorem claim1_close_callback_once_witness :
    (c1DemoRun.selfDestroyed = true ∧
      (runClose c1DemoRun c1DemoOrder).callbackCalls = 1) ∧
    (runClose c1DemoRun (c1DemoOrder.take 2)).callbackCalls = 0 := by
  have h := (claim1_close_callback_once c1DemoChan c1DemoRun c1DemoOrder).2
    (by rfl) (by decide)
  exact ⟨⟨h.1, h.2.1⟩, h.2.2 2 (by decide)⟩

/-! ### Claim C3 -/

/-- Claim C3 counterexample: on a fresh channel (no server socket, no
inbound connections, no sub-channels) `close` initiates the Peer Pool's
close — yet performs no counter increment at all and leaves the counter at
its initial 1.  The claim, which says the counter is incremented before
every closed sub-resource including the Peer Pool, would require an
increment before that initiation (and a counter of 2). -/
theorem claim3_counterexample :
    (closeInit (TChannelNew {} 0)).map
      (fun r => (r.trace, r.counter, r.trace.count CloseAction.incr)) =
      .ok ([CloseAction.initiate Resource.peerPool], 1, 0) := by
  rfl

/-- Claim C3 (amended): the counter starts at 1; for the listening socket,
every live inbound connection and every non-destroyed sub-channel the
counter is incremented immediately before that resource's close is
initiated and decremented in its completion callback; the Peer Pool's
close is initiated WITHOUT a preceding increment — its completion callback
decrements the initial 1 — so after initiation the counter equals the
number of pending completion callbacks. -/
theorem claim3_close_counter_accounting (c : Chan) (r : CloseRun)
    (h : closeInit c = .ok r) :
    r.selfDestroyed = true ∧
    r.counter = (r.pending.length : Int) ∧
    ∃ u, r.trace = u ++ [CloseAction.initiate Resource.peerPool] ∧
      incrPairs u = true ∧
      u.count CloseAction.incr + 1 = r.pending.length ∧
      r.counter = 1 + (u.count CloseAction.incr : Int) := by
  obtain ⟨h1, h2, h3, u, hu1, hu2, hu3⟩ := closeInit_spec c r h
  refine ⟨h1, h2, u, hu1, hu2, hu3, ?_⟩
  rw [h2, ← hu3]
  push_cast
  ring

theorem claim3_close_counter_accounting_witness :
    c3DemoRun.selfDestroyed = true ∧
    c3DemoRun.counter = (c3DemoRun.pending.length : Int) ∧
    ∃ u, c3DemoRun.trace = u ++ [CloseAction.initiate Resource.peerPool] ∧
      incrPairs u = true ∧
      u.count CloseAction.incr + 1 = c3DemoRun.pending.length ∧
      c3DemoRun.counter = 1 + (u.count CloseAction.incr : Int) :=
  claim3_close_counter_accounting c3DemoChan c3DemoRun (by rfl)

end TChannelModel
